import Mathlib

/-!
Shallow embedding of the resolution-calculator core of this repository:
`src/core/calculator.py` (class `ResolutionCalculator`),
`src/core/presets.py` (the preset catalog), and the preset-application
entry point `MainWindow._apply_preset` of `src/ui/main_window.py`.

Python `Decimal` values are modelled as rationals (`ℚ`): every finite
decimal number is a rational, and the `Decimal` arithmetic used by the
calculator is exact arithmetic followed by explicit `quantize` calls,
which we model by exact rational arithmetic followed by explicit
rounding functions.  String inputs are modelled by their parse result:
`some v` for a string that parses to the finite decimal value `v`,
`none` for a string with no finite decimal value (the `InvalidOperation`
path of the `try` blocks, which leaves the state unchanged).
-/

namespace ResolutionCal

/-- Python `ROUND_HALF_UP` rounding of a rational to an integer:
round to the nearest integer, ties away from zero. -/
def rhu (q : ℚ) : ℤ :=
  if 0 ≤ q then ⌊q + 1 / 2⌋ else -⌊-q + 1 / 2⌋

/-- `x.quantize(Decimal("0.01"), rounding=ROUND_HALF_UP)`:
round to two fractional digits, half up. -/
def round2 (q : ℚ) : ℚ := (rhu (q * 100) : ℚ) / 100

/-- `x.quantize(Decimal("0.000001"), rounding=ROUND_HALF_UP)`:
round to six fractional digits, half up. -/
def round6 (q : ℚ) : ℚ := (rhu (q * 1000000) : ℚ) / 1000000

/-- The state of a `ResolutionCalculator` instance: fields `_width`,
`_height`, `_aspect_ratio` (the `aspect` field here; `none` models
Python `None`) and `_ratio_locked`. -/
structure CalcState where
  width : ℚ
  height : ℚ
  aspect : Option ℚ
  ratio_locked : Bool
deriving DecidableEq

/-- `ResolutionCalculator._calculate_ratio`: when `height > 0` store
`round6(width / height)`, otherwise store `None`. -/
def calculateAspect (s : CalcState) : CalcState :=
  if 0 < s.height then
    { s with aspect := some (round6 (s.width / s.height)) }
  else
    { s with aspect := none }

/-- `ResolutionCalculator.__init__`: width 1920, height 1080, unlocked,
then `_calculate_ratio`. -/
def init : CalcState :=
  calculateAspect { width := 1920, height := 1080, aspect := none, ratio_locked := false }

/-- The `width` property setter of `ResolutionCalculator`.  `none` models
an unparsable input (caught exception, state unchanged). -/
def set_width (s : CalcState) (value : Option ℚ) : CalcState :=
  match value with
  | none => s
  | some v =>
    let new_width := round2 v
    if new_width ≤ 0 then s
    else
      match s.ratio_locked, s.aspect with
      | true, some r =>
        if r ≠ 0 then
          let new_height := round2 (new_width / r)
          if new_height ≤ 0 then s
          else { s with width := new_width, height := new_height }
        else { s with width := new_width }
      | true, none => { s with width := new_width }
      | false, _ => calculateAspect { s with width := new_width }

/-- The `height` property setter of `ResolutionCalculator`. -/
def set_height (s : CalcState) (value : Option ℚ) : CalcState :=
  match value with
  | none => s
  | some v =>
    let new_height := round2 v
    if new_height ≤ 0 then s
    else
      match s.ratio_locked, s.aspect with
      | true, some r =>
        if r ≠ 0 then
          let new_width := round2 (new_height * r)
          if new_width ≤ 0 then s
          else { s with width := new_width, height := new_height }
        else { s with height := new_height }
      | true, none => { s with height := new_height }
      | false, _ => calculateAspect { s with height := new_height }

/-- `ResolutionCalculator.lock_ratio` (the spec's `setLocked`): no-op when
the flag is unchanged; on locking, recompute the frozen aspect ratio from
the current width and height; on unlocking, leave it as-is. -/
def setLocked (s : CalcState) (lock : Bool) : CalcState :=
  if s.ratio_locked = lock then s
  else
    let s1 := { s with ratio_locked := lock }
    if lock then calculateAspect s1 else s1

/-- Parse outcome of the ratio string of `set_ratio_and_calculate`:
`single v` for a string without a colon parsing to the decimal `v`,
`pair l r` for a string with exactly one colon whose two parts parse to
the decimals `l` and `r`, `malformed` for every other string (no finite
decimal, or more than one colon). -/
inductive RatioInput where
  | single (v : ℚ)
  | pair (l r : ℚ)
  | malformed
deriving DecidableEq

/-- `ResolutionCalculator.set_ratio_and_calculate`. -/
def set_ratio_and_calculate (s : CalcState) (input : RatioInput) (base_on_width : Bool) :
    CalcState :=
  let target? : Option ℚ :=
    match input with
    | RatioInput.single v => some (round6 v)
    | RatioInput.pair l r => if l ≤ 0 ∨ r ≤ 0 then none else some (round6 (l / r))
    | RatioInput.malformed => none
  match target? with
  | none => s
  | some target =>
    if target ≤ 0 then s
    else
      let s1 := { s with aspect := some target, ratio_locked := true }
      if base_on_width then
        if 0 < s1.width ∧ 0 < target then
          let new_height := round2 (s1.width / target)
          if 0 < new_height then { s1 with height := new_height } else s1
        else s1
      else
        if 0 < s1.height ∧ 0 < target then
          let new_width := round2 (s1.height * target)
          if 0 < new_width then { s1 with width := new_width } else s1
        else s1

/-- `ResolutionCalculator.multiply_by_scale`.  The factor argument is the
parse result of the factor string (`none`: no finite decimal value). -/
def multiply_by_scale (s : CalcState) (factor? : Option ℚ) : CalcState :=
  match factor? with
  | none => s
  | some scale_factor =>
    if scale_factor ≤ 0 then s
    else
      let was_locked := s.ratio_locked
      let s1 := if was_locked then setLocked s false else s
      let new_width := round2 (s1.width * scale_factor)
      let new_height := round2 (s1.height * scale_factor)
      if new_width ≤ 0 ∨ new_height ≤ 0 then
        if was_locked then setLocked s1 true else s1
      else
        let s2 := set_width s1 (some new_width)
        let s3 := set_height s2 (some new_height)
        if was_locked then setLocked s3 true else s3

/-- `src/core/presets.py`: `ResolutionPreset` (name, width, height). -/
structure ResolutionPreset where
  name : String
  width : ℚ
  height : ℚ
deriving DecidableEq

/-- `src/core/presets.py`: the static `PRESETS` catalog. -/
def PRESETS : List ResolutionPreset := [
  ⟨"SD (4:3)", 640, 480⟩,
  ⟨"HD (16:9)", 1280, 720⟩,
  ⟨"FHD (16:9)", 1920, 1080⟩,
  ⟨"QHD (16:9)", 2560, 1440⟩,
  ⟨"4K UHD (16:9)", 3840, 2160⟩,
  ⟨"2K DCI (1.90:1)", 2048, 1080⟩,
  ⟨"4K DCI (1.90:1)", 4096, 2160⟩,
  ⟨"Academy Ratio (1.375:1)", 1998, 1453⟩,
  ⟨"Widescreen Flat (1.85:1)", 1998, 1080⟩,
  ⟨"CinemaScope (2.39:1)", 2048, 858⟩,
  ⟨"Univisium (2:1)", 2160, 1080⟩,
  ⟨"IMAX Digital (1.90:1)", 4096, 2160⟩,
  ⟨"IMAX 70mm Film (1.43:1 approx)", 4096, 2864⟩,
  ⟨"Mobile FHD+ (9:19.5)", 1080, 2340⟩,
  ⟨"Mobile FHD+ (9:20)", 1080, 2400⟩,
  ⟨"Mobile QHD+ (9:19 approx)", 1440, 3040⟩,
  ⟨"Mobile QHD+ (9:21 approx)", 1440, 3360⟩,
  ⟨"iPad 10.9\" (1640x2360)", 1640, 2360⟩,
  ⟨"iPad Pro 11\" (1668x2388)", 1668, 2388⟩,
  ⟨"Android Tab (16:10)", 2560, 1600⟩,
  ⟨"Surface Pro (3:2)", 2880, 1920⟩,
  ⟨"Square (1:1)", 1080, 1080⟩,
  ⟨"Photo 35mm (3:2)", 3000, 2000⟩,
  ⟨"Photo Micro 4/3 (4:3)", 2000, 1500⟩,
  ⟨"Photo Medium Format (6:7 approx)", 2100, 2450⟩,
  ⟨"Print 5x7 (7:5)", 2100, 1500⟩,
  ⟨"Print 8x10 (5:4)", 2400, 1920⟩]

/-- `src/core/presets.py`: `find_preset_by_name` (first match by exact name). -/
def find_preset_by_name (n : String) : Option ResolutionPreset :=
  PRESETS.find? (fun p => p.name == n)

/-- `MainWindow._apply_preset` of `src/ui/main_window.py`: unlock if locked,
assign both dimensions through the calculator's property setters, re-lock if
it was locked. -/
def apply_preset (s : CalcState) (preset_name : String) : CalcState :=
  match find_preset_by_name preset_name with
  | none => s
  | some preset =>
    let is_locked := s.ratio_locked
    let s1 := if is_locked then setLocked s false else s
    let s2 := set_width s1 (some preset.width)
    let s3 := set_height s2 (some preset.height)
    if is_locked then setLocked s3 true else s3

/-- `ResolutionCalculator.width_int`:
`int(width.to_integral_value(rounding=ROUND_HALF_UP))`. -/
def width_int (s : CalcState) : ℤ := rhu s.width

/-- `ResolutionCalculator.height_int`. -/
def height_int (s : CalcState) : ℤ := rhu s.height

/-- Python round-half-even rounding of a rational to an integer (the default
rounding used when formatting a `Decimal` with `f"{d:.2f}"`). -/
def rhe (q : ℚ) : ℤ :=
  if Int.fract q < 1 / 2 then ⌊q⌋
  else if 1 / 2 < Int.fract q then ⌊q⌋ + 1
  else if ⌊q⌋ % 2 = 0 then ⌊q⌋ else ⌊q⌋ + 1

/-- Two-digit zero-padded decimal string for an integer in `[0, 99]`. -/
def pad2 (n : ℤ) : String :=
  if n < 10 then "0" ++ toString n else toString n

/-- Models `f"{d:.2f}"[1:]` for a nonnegative `Decimal` `d` whose formatted
value is below 1 (at the call sites `d ≤ 1/2`): the two rounded fractional
digits, preceded by a dot, the leading zero dropped. -/
def fracFormat2 (d : ℚ) : String := "." ++ pad2 (rhe (d * 100))

/-- `ResolutionCalculator.width_decimal_part_str`. -/
def width_decimal_part_str (s : CalcState) : String :=
  let decimal_part : ℚ := |s.width - (width_int s : ℚ)|
  if decimal_part = 0 then "" else fracFormat2 decimal_part

/-- `ResolutionCalculator.height_decimal_part_str`. -/
def height_decimal_part_str (s : CalcState) : String :=
  let decimal_part : ℚ := |s.height - (height_int s : ℚ)|
  if decimal_part = 0 then "" else fracFormat2 decimal_part

/-- States reachable from the constructor state through the public mutating
operations of `ResolutionCalculator`. -/
inductive Reachable : CalcState → Prop where
  | base : Reachable init
  | stepWidth : ∀ s v, Reachable s → Reachable (set_width s v)
  | stepHeight : ∀ s v, Reachable s → Reachable (set_height s v)
  | stepLock : ∀ s b, Reachable s → Reachable (setLocked s b)
  | stepRatioSet : ∀ s input b, Reachable s → Reachable (set_ratio_and_calculate s input b)
  | stepScale : ∀ s f, Reachable s → Reachable (multiply_by_scale s f)

/-- The spec's §3 unlocked-state invariant, together with positivity of the
dimensions: when the lock is off, the stored aspect ratio is the rounded
quotient of the current dimensions. -/
def Inv (s : CalcState) : Prop :=
  0 < s.width ∧ 0 < s.height ∧
    (s.ratio_locked = false → s.aspect = some (round6 (s.width / s.height)))

instance : DecidablePred Inv := fun s => by unfold Inv; infer_instance

/-! ### Basic facts about the rounding functions -/

theorem rhu_intCast (k : ℤ) : rhu (k : ℚ) = k := by
  unfold rhu
  split
  · rw [Int.floor_int_add]
    norm_num
  · rw [show -(k : ℚ) = ((-k : ℤ) : ℚ) by push_cast; ring, Int.floor_int_add]
    norm_num

theorem round2_cast_div (k : ℤ) : round2 ((k : ℚ) / 100) = (k : ℚ) / 100 := by
  unfold round2
  rw [div_mul_cancel₀ _ (by norm_num : (100 : ℚ) ≠ 0), rhu_intCast]

theorem round2_idem (q : ℚ) : round2 (round2 q) = round2 q := by
  unfold round2
  rw [div_mul_cancel₀ _ (by norm_num : (100 : ℚ) ≠ 0), rhu_intCast]

theorem round2_intCast (k : ℤ) : round2 (k : ℚ) = (k : ℚ) := by
  have h := round2_cast_div (k * 100)
  rw [show ((k * 100 : ℤ) : ℚ) / 100 = (k : ℚ) by push_cast; ring] at h
  exact h

theorem abs_sub_rhu (q : ℚ) : |q - (rhu q : ℚ)| ≤ 1 / 2 := by
  unfold rhu
  split
  · have h := abs_sub_round q
    rwa [round_eq] at h
  · have h := abs_sub_round (-q)
    rw [round_eq] at h
    push_cast
    rw [show q - -(⌊-q + 1 / 2⌋ : ℚ) = -(-q - (⌊-q + 1 / 2⌋ : ℚ)) by ring, abs_neg]
    exact h

theorem rhe_intCast (n : ℤ) : rhe (n : ℚ) = n := by
  unfold rhe
  rw [Int.fract_intCast, Int.floor_intCast]
  norm_num

/-! ### Projection and case lemmas for the operations -/

theorem calculateAspect_width (s : CalcState) : (calculateAspect s).width = s.width := by
  unfold calculateAspect
  split <;> rfl

theorem calculateAspect_height (s : CalcState) : (calculateAspect s).height = s.height := by
  unfold calculateAspect
  split <;> rfl

theorem calculateAspect_flag (s : CalcState) :
    (calculateAspect s).ratio_locked = s.ratio_locked := by
  unfold calculateAspect
  split <;> rfl

theorem calculateAspect_aspect (s : CalcState) (h : 0 < s.height) :
    (calculateAspect s).aspect = some (round6 (s.width / s.height)) := by
  unfold calculateAspect
  rw [if_pos h]

theorem calculateAspect_flag_irrel (s : CalcState) (b : Bool) :
    (calculateAspect { s with ratio_locked := b }).aspect = (calculateAspect s).aspect := by
  unfold calculateAspect
  by_cases h : 0 < s.height
  · rw [if_pos h, if_pos h]
  · rw [if_neg h, if_neg h]

theorem setLocked_width (s : CalcState) (b : Bool) : (setLocked s b).width = s.width := by
  unfold setLocked
  split
  · rfl
  · split
    · rw [calculateAspect_width]
    · rfl

theorem setLocked_height (s : CalcState) (b : Bool) : (setLocked s b).height = s.height := by
  unfold setLocked
  split
  · rfl
  · split
    · rw [calculateAspect_height]
    · rfl

theorem setLocked_flag (s : CalcState) (b : Bool) : (setLocked s b).ratio_locked = b := by
  unfold setLocked
  split
  · next h => exact h
  · split
    · rw [calculateAspect_flag]
    · rfl

theorem setLocked_same (s : CalcState) (b : Bool) (h : s.ratio_locked = b) :
    setLocked s b = s := by
  simp [setLocked, h]

theorem setLocked_false_of_locked (s : CalcState) (h : s.ratio_locked = true) :
    setLocked s false = { s with ratio_locked := false } := by
  simp [setLocked, h]

theorem setLocked_true_of_unlocked (s : CalcState) (h : s.ratio_locked = false) :
    setLocked s true = calculateAspect { s with ratio_locked := true } := by
  simp [setLocked, h]

theorem setLocked_false_aspect (s : CalcState) : (setLocked s false).aspect = s.aspect := by
  unfold setLocked
  split
  · rfl
  · rfl

theorem set_width_none (s : CalcState) : set_width s none = s := rfl

theorem set_width_of_nonpos (s : CalcState) (v : ℚ) (h : round2 v ≤ 0) :
    set_width s (some v) = s := by
  simp [set_width, h]

theorem set_width_unlocked (s : CalcState) (v : ℚ) (hl : s.ratio_locked = false)
    (hv : 0 < round2 v) :
    set_width s (some v) = calculateAspect { s with width := round2 v } := by
  obtain ⟨w, ht, a, l⟩ := s
  cases l
  · simp [set_width, hv.not_le]
  · simp at hl

theorem set_width_locked (s : CalcState) (v r : ℚ) (hl : s.ratio_locked = true)
    (ha : s.aspect = some r) (hr : r ≠ 0) (hv : 0 < round2 v) :
    set_width s (some v) =
      (if round2 (round2 v / r) ≤ 0 then s
       else { s with width := round2 v, height := round2 (round2 v / r) }) := by
  obtain ⟨w, ht, a, l⟩ := s
  cases l
  · simp at hl
  · simp only at ha
    subst ha
    simp [set_width, hv.not_le, hr]

theorem set_height_none (s : CalcState) : set_height s none = s := rfl

theorem set_height_of_nonpos (s : CalcState) (v : ℚ) (h : round2 v ≤ 0) :
    set_height s (some v) = s := by
  simp [set_height, h]

theorem set_height_unlocked (s : CalcState) (v : ℚ) (hl : s.ratio_locked = false)
    (hv : 0 < round2 v) :
    set_height s (some v) = calculateAspect { s with height := round2 v } := by
  obtain ⟨w, ht, a, l⟩ := s
  cases l
  · simp [set_height, hv.not_le]
  · simp at hl

theorem set_height_locked (s : CalcState) (v r : ℚ) (hl : s.ratio_locked = true)
    (ha : s.aspect = some r) (hr : r ≠ 0) (hv : 0 < round2 v) :
    set_height s (some v) =
      (if round2 (round2 v * r) ≤ 0 then s
       else { s with width := round2 (round2 v * r), height := round2 v }) := by
  obtain ⟨w, ht, a, l⟩ := s
  cases l
  · simp at hl
  · simp only at ha
    subst ha
    simp [set_height, hv.not_le, hr]

/-! ### Positivity of the dimensions is preserved by every operation -/

theorem set_width_pos (s : CalcState) (v : Option ℚ) (hw : 0 < s.width) (hh : 0 < s.height) :
    0 < (set_width s v).width ∧ 0 < (set_width s v).height := by
  cases v with
  | none => exact ⟨hw, hh⟩
  | some v =>
    by_cases hnp : round2 v ≤ 0
    · rw [set_width_of_nonpos s v hnp]
      exact ⟨hw, hh⟩
    · push_neg at hnp
      obtain ⟨w, ht, a, l⟩ := s
      cases l with
      | false =>
        rw [set_width_unlocked _ v rfl hnp, calculateAspect_width, calculateAspect_height]
        exact ⟨hnp, hh⟩
      | true =>
        cases a with
        | none =>
          simp only [set_width, hnp.not_le]
          exact ⟨hnp, hh⟩
        | some r =>
          by_cases hr : r = 0
          · subst hr
            simp only [set_width, hnp.not_le]
            simp
            exact ⟨hnp, hh⟩
          · rw [set_width_locked _ v r rfl rfl hr hnp]
            split
            · exact ⟨hw, hh⟩
            · next hgt => exact ⟨hnp, lt_of_not_le hgt⟩

theorem set_height_pos (s : CalcState) (v : Option ℚ) (hw : 0 < s.width) (hh : 0 < s.height) :
    0 < (set_height s v).width ∧ 0 < (set_height s v).height := by
  cases v with
  | none => exact ⟨hw, hh⟩
  | some v =>
    by_cases hnp : round2 v ≤ 0
    · rw [set_height_of_nonpos s v hnp]
      exact ⟨hw, hh⟩
    · push_neg at hnp
      obtain ⟨w, ht, a, l⟩ := s
      cases l with
      | false =>
        rw [set_height_unlocked _ v rfl hnp, calculateAspect_width, calculateAspect_height]
        exact ⟨hw, hnp⟩
      | true =>
        cases a with
        | none =>
          simp only [set_height, hnp.not_le]
          exact ⟨hw, hnp⟩
        | some r =>
          by_cases hr : r = 0
          · subst hr
            simp only [set_height, hnp.not_le]
            simp
            exact ⟨hw, hnp⟩
          · rw [set_height_locked _ v r rfl rfl hr hnp]
            split
            · exact ⟨hw, hh⟩
            · next hgt => exact ⟨lt_of_not_le hgt, hnp⟩

theorem setLocked_pos (s : CalcState) (b : Bool) (hw : 0 < s.width) (hh : 0 < s.height) :
    0 < (setLocked s b).width ∧ 0 < (setLocked s b).height := by
  rw [setLocked_width, setLocked_height]
  exact ⟨hw, hh⟩

theorem set_ratio_pos (s : CalcState) (input : RatioInput) (b : Bool)
    (hw : 0 < s.width) (hh : 0 < s.height) :
    0 < (set_ratio_and_calculate s input b).width ∧
    0 < (set_ratio_and_calculate s input b).height := by
  unfold set_ratio_and_calculate
  cases input <;> simp only []
  case malformed => exact ⟨hw, hh⟩
  case single v =>
    split
    · exact ⟨hw, hh⟩
    · split
      · split
        · split
          · next hpos => exact ⟨hw, hpos⟩
          · exact ⟨hw, hh⟩
        · exact ⟨hw, hh⟩
      · split
        · split
          · next hpos => exact ⟨hpos, hh⟩
          · exact ⟨hw, hh⟩
        · exact ⟨hw, hh⟩
  case pair l r =>
    split
    · exact ⟨hw, hh⟩
    · split
      · exact ⟨hw, hh⟩
      · split
        · split
          · split
            · next hpos => exact ⟨hw, hpos⟩
            · exact ⟨hw, hh⟩
          · exact ⟨hw, hh⟩
        · split
          · split
            · next hpos => exact ⟨hpos, hh⟩
            · exact ⟨hw, hh⟩
          · exact ⟨hw, hh⟩

theorem multiply_pos (s : CalcState) (f : Option ℚ) (hw : 0 < s.width) (hh : 0 < s.height) :
    0 < (multiply_by_scale s f).width ∧ 0 < (multiply_by_scale s f).height := by
  cases f with
  | none => exact ⟨hw, hh⟩
  | some q =>
    by_cases hq : q ≤ 0
    · simp only [multiply_by_scale, if_pos hq]
      exact ⟨hw, hh⟩
    · simp only [multiply_by_scale, if_neg hq]
      set s1 := if s.ratio_locked = true then setLocked s false else s with hs1
      have h1 : 0 < s1.width ∧ 0 < s1.height := by
        rw [hs1]
        split
        · exact setLocked_pos s false hw hh
        · exact ⟨hw, hh⟩
      split
      · split
        · exact setLocked_pos s1 true h1.1 h1.2
        · exact h1
      · have h2 := set_width_pos s1 (some (round2 (s1.width * q))) h1.1 h1.2
        have h3 := set_height_pos (set_width s1 (some (round2 (s1.width * q))))
          (some (round2 (s1.height * q))) h2.1 h2.2
        split
        · exact setLocked_pos _ true h3.1 h3.2
        · exact h3

/-! ### The lock flag under the setters, and preservation of `Inv` -/

theorem set_width_flag (s : CalcState) (v : Option ℚ) :
    (set_width s v).ratio_locked = s.ratio_locked := by
  cases v with
  | none => rfl
  | some v =>
    unfold set_width
    simp only []
    split
    · rfl
    · split
      · split
        · split
          · rfl
          · rfl
        · rfl
      · rfl
      · rw [calculateAspect_flag]

theorem set_height_flag (s : CalcState) (v : Option ℚ) :
    (set_height s v).ratio_locked = s.ratio_locked := by
  cases v with
  | none => rfl
  | some v =>
    unfold set_height
    simp only []
    split
    · rfl
    · split
      · split
        · split
          · rfl
          · rfl
        · rfl
      · rfl
      · rw [calculateAspect_flag]

theorem inv_set_width (s : CalcState) (v : Option ℚ) (h : Inv s) : Inv (set_width s v) := by
  obtain ⟨hw, hh, hfresh⟩ := h
  have hpos := set_width_pos s v hw hh
  refine ⟨hpos.1, hpos.2, ?_⟩
  intro hfl
  rw [set_width_flag] at hfl
  cases v with
  | none => exact hfresh hfl
  | some v =>
    by_cases hnp : round2 v ≤ 0
    · rw [set_width_of_nonpos s v hnp]
      exact hfresh hfl
    · push_neg at hnp
      rw [set_width_unlocked s v hfl hnp,
        calculateAspect_aspect { s with width := round2 v } hh,
        calculateAspect_width, calculateAspect_height]

theorem inv_set_height (s : CalcState) (v : Option ℚ) (h : Inv s) : Inv (set_height s v) := by
  obtain ⟨hw, hh, hfresh⟩ := h
  have hpos := set_height_pos s v hw hh
  refine ⟨hpos.1, hpos.2, ?_⟩
  intro hfl
  rw [set_height_flag] at hfl
  cases v with
  | none => exact hfresh hfl
  | some v =>
    by_cases hnp : round2 v ≤ 0
    · rw [set_height_of_nonpos s v hnp]
      exact hfresh hfl
    · push_neg at hnp
      rw [set_height_unlocked s v hfl hnp,
        calculateAspect_aspect { s with height := round2 v } hnp,
        calculateAspect_width, calculateAspect_height]

theorem inv_setLocked_true (s : CalcState) (h : Inv s) : Inv (setLocked s true) := by
  refine ⟨(setLocked_pos s true h.1 h.2.1).1, (setLocked_pos s true h.1 h.2.1).2, ?_⟩
  intro hfl
  rw [setLocked_flag] at hfl
  exact Bool.noConfusion hfl

theorem set_ratio_eq_or_locked (s : CalcState) (input : RatioInput) (b : Bool) :
    set_ratio_and_calculate s input b = s ∨
    (set_ratio_and_calculate s input b).ratio_locked = true := by
  unfold set_ratio_and_calculate
  cases input <;> simp only []
  case malformed => exact Or.inl trivial
  case single v =>
    split
    · left
      trivial
    · right
      split
      · split
        · split
          · rfl
          · rfl
        · rfl
      · split
        · split
          · rfl
          · rfl
        · rfl
  case pair l r =>
    split
    · left
      trivial
    · split
      · left
        trivial
      · right
        split
        · split
          · split
            · rfl
            · rfl
          · rfl
        · split
          · split
            · rfl
            · rfl
          · rfl

theorem inv_set_ratio (s : CalcState) (input : RatioInput) (b : Bool) (h : Inv s) :
    Inv (set_ratio_and_calculate s input b) := by
  rcases set_ratio_eq_or_locked s input b with heq | hfl
  · rw [heq]
    exact h
  · have hpos := set_ratio_pos s input b h.1 h.2.1
    refine ⟨hpos.1, hpos.2, ?_⟩
    intro hf
    rw [hfl] at hf
    exact Bool.noConfusion hf

theorem inv_multiply (s : CalcState) (f : Option ℚ) (h : Inv s) :
    Inv (multiply_by_scale s f) := by
  cases f with
  | none => exact h
  | some q =>
    by_cases hq : q ≤ 0
    · simp only [multiply_by_scale, if_pos hq]
      exact h
    · simp only [multiply_by_scale, if_neg hq]
      by_cases hl : s.ratio_locked = true
      · simp only [if_pos hl]
        set s1 := setLocked s false with hs1
        have h1w : 0 < s1.width := by rw [hs1, setLocked_width]; exact h.1
        have h1h : 0 < s1.height := by rw [hs1, setLocked_height]; exact h.2.1
        split
        · refine ⟨(setLocked_pos s1 true h1w h1h).1, (setLocked_pos s1 true h1w h1h).2, ?_⟩
          intro hf
          rw [setLocked_flag] at hf
          exact Bool.noConfusion hf
        · have h2 := set_width_pos s1 (some (round2 (s1.width * q))) h1w h1h
          have h3 := set_height_pos (set_width s1 (some (round2 (s1.width * q))))
            (some (round2 (s1.height * q))) h2.1 h2.2
          refine ⟨(setLocked_pos _ true h3.1 h3.2).1, (setLocked_pos _ true h3.1 h3.2).2, ?_⟩
          intro hf
          rw [setLocked_flag] at hf
          exact Bool.noConfusion hf
      · simp only [if_neg hl]
        split
        · exact h
        · exact inv_set_height _ _ (inv_set_width _ _ h)

/-! ### Concrete evaluations and a reachable state with a stale frozen ratio -/

theorem init_eval : init = ⟨1920, 1080, some (1777778 / 1000000), false⟩ := by
  norm_num [init, calculateAspect, round6, rhu, CalcState.mk.injEq]

/-- A reachable state whose frozen aspect ratio (3) differs from the rounded
quotient of its dimensions: produced by `set_width("0.01")` followed by
`set_ratio_and_calculate("3", base_on_width=True)`, whose dependent height
update `round2(0.01 / 3) = 0` is skipped. -/
def staleLocked : CalcState := ⟨1 / 100, 1080, some 3, true⟩

/-- `staleLocked` after `lock_ratio(False)`: unlocked, but the aspect ratio
field still holds the stale frozen value 3. -/
def staleUnlocked : CalcState := ⟨1 / 100, 1080, some 3, false⟩

theorem trace_set_width : set_width init (some (1 / 100)) =
    ⟨1 / 100, 1080, some (9 / 1000000), false⟩ := by
  norm_num [init, set_width, calculateAspect, round2, round6, rhu, CalcState.mk.injEq]

theorem trace_set_ratio :
    set_ratio_and_calculate ⟨1 / 100, 1080, some (9 / 1000000), false⟩
      (RatioInput.single 3) true = staleLocked := by
  norm_num [set_ratio_and_calculate, staleLocked, round2, round6, rhu, CalcState.mk.injEq]

theorem trace_unlock : setLocked staleLocked false = staleUnlocked := by
  norm_num [setLocked, staleLocked, staleUnlocked, CalcState.mk.injEq]

theorem reachable_staleLocked : Reachable staleLocked := by
  have h := Reachable.stepRatioSet _ (RatioInput.single 3) true
    (Reachable.stepWidth _ (some (1 / 100)) Reachable.base)
  rwa [trace_set_width, trace_set_ratio] at h

theorem reachable_staleUnlocked : Reachable staleUnlocked := by
  have h := Reachable.stepLock staleLocked false reachable_staleLocked
  rwa [trace_unlock] at h

/-! ### Claim theorems -/

/-- C9: every state reachable from the constructor state through the public
mutating operations has positive width and height; no operation can make a
dimension zero or negative. -/
theorem C9_positive_dimensions (s : CalcState) (h : Reachable s) :
    0 < s.width ∧ 0 < s.height := by
  induction h with
  | base => rw [init_eval]; norm_num
  | stepWidth s v _ ih => exact set_width_pos s v ih.1 ih.2
  | stepHeight s v _ ih => exact set_height_pos s v ih.1 ih.2
  | stepLock s b _ ih => exact setLocked_pos s b ih.1 ih.2
  | stepRatioSet s input b _ ih => exact set_ratio_pos s input b ih.1 ih.2
  | stepScale s f _ ih => exact multiply_pos s f ih.1 ih.2

/-- Witness for C9 at the constructor state. -/
theorem C9_positive_dimensions_witness : 0 < init.width ∧ 0 < init.height :=
  C9_positive_dimensions init Reachable.base

/-- C1 counterexample: the reachable state `staleLocked` (frozen ratio 3,
width 0.01, height 1080), after the mutating operation `lock_ratio(False)`,
is unlocked yet its aspect ratio differs from `round6(width / height)`:
unlocking leaves the stale frozen ratio in place. -/
theorem C1_counterexample :
    Reachable staleLocked ∧ setLocked staleLocked false = staleUnlocked ∧
    Reachable staleUnlocked ∧ staleUnlocked.ratio_locked = false ∧
    staleUnlocked.aspect ≠ some (round6 (staleUnlocked.width / staleUnlocked.height)) := by
  refine ⟨reachable_staleLocked, trace_unlock, reachable_staleUnlocked, rfl, ?_⟩
  norm_num [staleUnlocked, round6, rhu]

/-- C1 (amended): the unlocked-state invariant `ratioLocked = false →
aspectRatio = round6(width / height)` (together with positive dimensions) is
preserved by setWidth, setHeight, lock_ratio(true), set_ratio_and_calculate
and multiply_by_scale; lock_ratio(false) preserves width and height and
leaves the aspect-ratio field at its previous (possibly stale frozen)
value. -/
theorem C1_amended (s : CalcState) (v v2 f : Option ℚ) (input : RatioInput) (bw : Bool)
    (h : Inv s) :
    Inv (set_width s v) ∧ Inv (set_height s v2) ∧ Inv (setLocked s true) ∧
    Inv (set_ratio_and_calculate s input bw) ∧ Inv (multiply_by_scale s f) ∧
    (setLocked s false).width = s.width ∧ (setLocked s false).height = s.height ∧
    (setLocked s false).aspect = s.aspect :=
  ⟨inv_set_width s v h, inv_set_height s v2 h, inv_setLocked_true s h,
   inv_set_ratio s input bw h, inv_multiply s f h,
   setLocked_width s false, setLocked_height s false, setLocked_false_aspect s⟩

/-- Witness for the amended C1 at the constructor state. -/
theorem C1_amended_witness : Inv init ∧ Inv (set_width init (some 500)) := by
  have hInv : Inv init := by
    rw [init_eval]
    unfold Inv
    norm_num [round6, rhu]
  exact ⟨hInv, (C1_amended init (some 500) none none RatioInput.malformed true hInv).1⟩

/-- C2: in a locked state with frozen positive ratio `r`, setting a width
that rounds positive with a positive computed dependent height stores the
rounded width and the dependent height `round2(round2(w1) / r)`;
symmetrically for the height setter with `round2(round2(h1) * r)`. -/
theorem C2_locked_setters (s : CalcState) (r w1 h1 : ℚ) (hl : s.ratio_locked = true)
    (ha : s.aspect = some r) (hr : 0 < r) :
    (0 < round2 w1 → 0 < round2 (round2 w1 / r) →
      (set_width s (some w1)).width = round2 w1 ∧
      (set_width s (some w1)).height = round2 (round2 w1 / r)) ∧
    (0 < round2 h1 → 0 < round2 (round2 h1 * r) →
      (set_height s (some h1)).height = round2 h1 ∧
      (set_height s (some h1)).width = round2 (round2 h1 * r)) := by
  constructor
  · intro hv hdep
    rw [set_width_locked s w1 r hl ha hr.ne' hv, if_neg hdep.not_le]
    exact ⟨rfl, rfl⟩
  · intro hv hdep
    rw [set_height_locked s h1 r hl ha hr.ne' hv, if_neg hdep.not_le]
    exact ⟨rfl, rfl⟩

/-- Witness for C2: locked 1920×1080 at frozen ratio 1.777778, setting
width 1000 and (separately) height 1000. -/
theorem C2_locked_setters_witness :
    (set_width ⟨1920, 1080, some (1777778 / 1000000), true⟩ (some 1000)).width =
      round2 1000 ∧
    (set_width ⟨1920, 1080, some (1777778 / 1000000), true⟩ (some 1000)).height =
      round2 (round2 1000 / (1777778 / 1000000)) ∧
    (set_height ⟨1920, 1080, some (1777778 / 1000000), true⟩ (some 1000)).height =
      round2 1000 ∧
    (set_height ⟨1920, 1080, some (1777778 / 1000000), true⟩ (some 1000)).width =
      round2 (round2 1000 * (1777778 / 1000000)) := by
  have h := C2_locked_setters ⟨1920, 1080, some (1777778 / 1000000), true⟩
    (1777778 / 1000000) 1000 1000 rfl rfl (by norm_num)
  have h1 := h.1 (by norm_num [round2, rhu]) (by norm_num [round2, rhu])
  have h2 := h.2 (by norm_num [round2, rhu]) (by norm_num [round2, rhu])
  exact ⟨h1.1, h1.2, h2.1, h2.2⟩

/-- C7: the dimension setters leave the whole state unchanged on an
unparsable input, on an input rounding to a non-positive value (in
particular `-5`), and, when locked with a nonzero frozen ratio, on an input
whose computed dependent dimension rounds to a non-positive value. -/
theorem C7_setter_rejection (s : CalcState) (v r : ℚ) :
    set_width s none = s ∧
    (round2 v ≤ 0 → set_width s (some v) = s) ∧
    (s.ratio_locked = true → s.aspect = some r → r ≠ 0 → 0 < round2 v →
      round2 (round2 v / r) ≤ 0 → set_width s (some v) = s) ∧
    set_height s none = s ∧
    (round2 v ≤ 0 → set_height s (some v) = s) ∧
    (s.ratio_locked = true → s.aspect = some r → r ≠ 0 → 0 < round2 v →
      round2 (round2 v * r) ≤ 0 → set_height s (some v) = s) ∧
    set_width s (some (-5)) = s := by
  refine ⟨rfl, fun h => set_width_of_nonpos s v h, ?_, rfl,
    fun h => set_height_of_nonpos s v h, ?_,
    set_width_of_nonpos s (-5) (by norm_num [round2, rhu])⟩
  · intro hl ha hr hv hdep
    rw [set_width_locked s v r hl ha hr hv, if_pos hdep]
  · intro hl ha hr hv hdep
    rw [set_height_locked s v r hl ha hr hv, if_pos hdep]

/-- Witness for C7: `setWidth("-5")` and an unparsable width input leave the
constructor state unchanged. -/
theorem C7_setter_rejection_witness :
    set_width init (some (-5)) = init ∧ set_width init none = init := by
  have h := C7_setter_rejection init (-5) 1
  exact ⟨h.2.2.2.2.2.2, h.1⟩

/-- C4 counterexample: from the reachable unlocked state `staleUnlocked`
(aspect field still 3, width 0.01, height 1080), `lock_ratio(true)` followed
immediately by `lock_ratio(false)` keeps width and height but replaces the
aspect ratio (the lock transition recomputes it from the dimensions). -/
theorem C4_counterexample :
    Reachable staleUnlocked ∧
    (setLocked (setLocked staleUnlocked true) false).width = staleUnlocked.width ∧
    (setLocked (setLocked staleUnlocked true) false).height = staleUnlocked.height ∧
    (setLocked (setLocked staleUnlocked true) false).aspect ≠ staleUnlocked.aspect := by
  refine ⟨reachable_staleUnlocked, ?_, ?_, ?_⟩ <;>
    norm_num [staleUnlocked, setLocked, calculateAspect, round6, rhu, CalcState.mk.injEq]

/-- C4 (amended): `lock_ratio(true)` then `lock_ratio(false)` always
preserves width and height; it also preserves the aspect-ratio field when
the state was already locked, or was unlocked with a fresh ratio
(`aspectRatio = round6(width / height)`, positive height); an unlocked
state with a stale ratio instead gets `round6(width / height)`. -/
theorem C4_amended (s : CalcState) :
    (setLocked (setLocked s true) false).width = s.width ∧
    (setLocked (setLocked s true) false).height = s.height ∧
    (s.ratio_locked = true → (setLocked (setLocked s true) false).aspect = s.aspect) ∧
    (s.ratio_locked = false → 0 < s.height → s.aspect = some (round6 (s.width / s.height)) →
      (setLocked (setLocked s true) false).aspect = s.aspect) := by
  refine ⟨?_, ?_, ?_, ?_⟩
  · rw [setLocked_width, setLocked_width]
  · rw [setLocked_height, setLocked_height]
  · intro hl
    rw [setLocked_same s true hl]
    exact setLocked_false_aspect s
  · intro hl hh ha
    rw [setLocked_true_of_unlocked s hl, setLocked_false_aspect,
      calculateAspect_aspect { s with ratio_locked := true } hh, ha]

/-- Witness for the amended C4 at the constructor state (unlocked, fresh
ratio). -/
theorem C4_amended_witness :
    (setLocked (setLocked init true) false).width = init.width ∧
    (setLocked (setLocked init true) false).aspect = init.aspect := by
  have h := C4_amended init
  refine ⟨h.1, h.2.2.2 (by rw [init_eval]) (by rw [init_eval]; norm_num) ?_⟩
  rw [init_eval]
  norm_num [round6, rhu]

/-- C3 counterexample: on the reachable locked state `staleLocked` (frozen
ratio 3, width 0.01, height 1080), `multiply_by_scale("0.1")` fails (the
scaled width rounds to 0) and leaves width, height and the lock unchanged —
but the aspect-ratio field changes: the restoring `lock_ratio(True)`
recomputes it from the dimensions. -/
theorem C3_counterexample :
    Reachable staleLocked ∧ (0 : ℚ) < 1 / 10 ∧
    round2 (staleLocked.width * (1 / 10)) ≤ 0 ∧
    (multiply_by_scale staleLocked (some (1 / 10))).width = staleLocked.width ∧
    (multiply_by_scale staleLocked (some (1 / 10))).height = staleLocked.height ∧
    (multiply_by_scale staleLocked (some (1 / 10))).ratio_locked = staleLocked.ratio_locked ∧
    (multiply_by_scale staleLocked (some (1 / 10))).aspect ≠ staleLocked.aspect := by
  refine ⟨reachable_staleLocked, by norm_num, ?_, ?_, ?_, ?_, ?_⟩ <;>
    norm_num [staleLocked, multiply_by_scale, setLocked, calculateAspect, round2, round6, rhu,
      CalcState.mk.injEq]

/-- C3 (amended): a failing `multiply_by_scale` leaves width, height and the
lock flag unchanged; the aspect-ratio field is also unchanged for an
unparsable factor, a non-positive factor, or when the state was unlocked —
but when a scaled dimension rounds non-positive in a locked state, the
aspect ratio is recomputed as `round6(width / height)` by the lock-restoring
step (differing from the prior value exactly when the frozen ratio was
stale). -/
theorem C3_amended (s : CalcState) (f : ℚ) :
    multiply_by_scale s none = s ∧
    (f ≤ 0 → multiply_by_scale s (some f) = s) ∧
    (0 < f → round2 (s.width * f) ≤ 0 ∨ round2 (s.height * f) ≤ 0 →
      (multiply_by_scale s (some f)).width = s.width ∧
      (multiply_by_scale s (some f)).height = s.height ∧
      (multiply_by_scale s (some f)).ratio_locked = s.ratio_locked ∧
      (s.ratio_locked = false → (multiply_by_scale s (some f)).aspect = s.aspect) ∧
      (s.ratio_locked = true →
        (multiply_by_scale s (some f)).aspect = (calculateAspect s).aspect)) := by
  refine ⟨rfl, ?_, ?_⟩
  · intro hf
    simp [multiply_by_scale, hf]
  · intro hf hor
    by_cases hl : s.ratio_locked = true
    · have heq : multiply_by_scale s (some f) = setLocked (setLocked s false) true := by
        simp only [multiply_by_scale, if_neg hf.not_le, if_pos hl]
        rw [setLocked_width, setLocked_height, if_pos hor]
      rw [heq]
      refine ⟨?_, ?_, ?_, ?_, ?_⟩
      · rw [setLocked_width, setLocked_width]
      · rw [setLocked_height, setLocked_height]
      · rw [setLocked_flag, hl]
      · intro hfalse
        rw [hl] at hfalse
        exact Bool.noConfusion hfalse
      · intro _
        rw [setLocked_true_of_unlocked _ (setLocked_flag s false),
          setLocked_false_of_locked s hl]
        exact calculateAspect_flag_irrel s true
    · have heq : multiply_by_scale s (some f) = s := by
        simp only [multiply_by_scale, if_neg hf.not_le, if_neg hl]
        rw [if_pos hor]
      rw [heq]
      exact ⟨rfl, rfl, rfl, fun _ => rfl, fun htrue => absurd htrue hl⟩

/-- Witness for the amended C3 on the state `staleLocked` with an unparsable
factor, the factor `-1` and the factor `0.1`. -/
theorem C3_amended_witness :
    multiply_by_scale staleLocked none = staleLocked ∧
    multiply_by_scale staleLocked (some (-1)) = staleLocked ∧
    (multiply_by_scale staleLocked (some (1 / 10))).width = staleLocked.width ∧
    (multiply_by_scale staleLocked (some (1 / 10))).ratio_locked =
      staleLocked.ratio_locked := by
  have h := C3_amended staleLocked (1 / 10)
  have h2 := C3_amended staleLocked (-1)
  have h3 := h.2.2 (by norm_num) (Or.inl (by norm_num [staleLocked, round2, rhu]))
  exact ⟨h.1, h2.2.1 (by norm_num), h3.1, h3.2.2.1⟩

theorem set_ratio_pair_eq_single (s : CalcState) (l r : ℚ) (b : Bool)
    (hl : 0 < l) (hr : 0 < r) :
    set_ratio_and_calculate s (RatioInput.pair l r) b =
    set_ratio_and_calculate s (RatioInput.single (l / r)) b := by
  simp only [set_ratio_and_calculate]
  rw [if_neg (not_or.mpr ⟨hl.not_le, hr.not_le⟩)]

/-- C5: on a successfully parsed ratio input with positive target ratio
`tr` (a bare decimal rounding to a positive 6-decimal value, or a
`left:right` pair of positive decimals with `tr = round6(left/right)`),
`set_ratio_and_calculate` stores `tr` and engages the lock unconditionally;
then it recomputes the dependent dimension (height from width when based on
width, width from height otherwise) when the base dimension and the rounded
dependent value are positive, and skips only that update otherwise. -/
theorem C5_set_ratio (s : CalcState) (input : RatioInput) (tr : ℚ) (b : Bool)
    (hparse : (∃ v, input = RatioInput.single v ∧ tr = round6 v) ∨
      (∃ l r, input = RatioInput.pair l r ∧ 0 < l ∧ 0 < r ∧ tr = round6 (l / r)))
    (htr : 0 < tr) :
    (set_ratio_and_calculate s input b).aspect = some tr ∧
    (set_ratio_and_calculate s input b).ratio_locked = true ∧
    (b = true → 0 < s.width → 0 < round2 (s.width / tr) →
      (set_ratio_and_calculate s input b).height = round2 (s.width / tr) ∧
      (set_ratio_and_calculate s input b).width = s.width) ∧
    (b = true → s.width ≤ 0 ∨ round2 (s.width / tr) ≤ 0 →
      (set_ratio_and_calculate s input b).height = s.height ∧
      (set_ratio_and_calculate s input b).width = s.width) ∧
    (b = false → 0 < s.height → 0 < round2 (s.height * tr) →
      (set_ratio_and_calculate s input b).width = round2 (s.height * tr) ∧
      (set_ratio_and_calculate s input b).height = s.height) ∧
    (b = false → s.height ≤ 0 ∨ round2 (s.height * tr) ≤ 0 →
      (set_ratio_and_calculate s input b).width = s.width ∧
      (set_ratio_and_calculate s input b).height = s.height) := by
  have hred : set_ratio_and_calculate s input b =
      (if b then
        (if 0 < s.width ∧ 0 < tr then
          (if 0 < round2 (s.width / tr)
           then
             { s with aspect := some tr, ratio_locked := true, height := round2 (s.width / tr) }
           else { s with aspect := some tr, ratio_locked := true })
         else { s with aspect := some tr, ratio_locked := true })
       else
        (if 0 < s.height ∧ 0 < tr then
          (if 0 < round2 (s.height * tr)
           then
             { s with aspect := some tr, ratio_locked := true, width := round2 (s.height * tr) }
           else { s with aspect := some tr, ratio_locked := true })
         else { s with aspect := some tr, ratio_locked := true })) := by
    rcases hparse with ⟨v, hin, htv⟩ | ⟨l, r, hin, hpl, hpr, htv⟩
    · subst hin
      subst htv
      simp only [set_ratio_and_calculate, if_neg htr.not_le]
    · subst hin
      subst htv
      rw [set_ratio_pair_eq_single s l r b hpl hpr]
      simp only [set_ratio_and_calculate, if_neg htr.not_le]
  refine ⟨?_, ?_, ?_, ?_, ?_, ?_⟩ <;> rw [hred]
  · split_ifs <;> rfl
  · split_ifs <;> rfl
  · rintro rfl hw hdep
    rw [if_pos rfl, if_pos ⟨hw, htr⟩, if_pos hdep]
    exact ⟨rfl, rfl⟩
  · rintro rfl hor
    rw [if_pos rfl]
    rcases hor with hw0 | hdep0
    · rw [if_neg (fun hc => absurd hc.1 (not_lt.mpr hw0))]
      exact ⟨rfl, rfl⟩
    · by_cases hwp : 0 < s.width ∧ 0 < tr
      · rw [if_pos hwp, if_neg (not_lt.mpr hdep0)]
        exact ⟨rfl, rfl⟩
      · rw [if_neg hwp]
        exact ⟨rfl, rfl⟩
  · rintro rfl hh hdep
    rw [if_neg Bool.false_ne_true, if_pos ⟨hh, htr⟩, if_pos hdep]
    exact ⟨rfl, rfl⟩
  · rintro rfl hor
    rw [if_neg Bool.false_ne_true]
    rcases hor with hh0 | hdep0
    · rw [if_neg (fun hc => absurd hc.1 (not_lt.mpr hh0))]
      exact ⟨rfl, rfl⟩
    · by_cases hhp : 0 < s.height ∧ 0 < tr
      · rw [if_pos hhp, if_neg (not_lt.mpr hdep0)]
        exact ⟨rfl, rfl⟩
      · rw [if_neg hhp]
        exact ⟨rfl, rfl⟩

/-- Witness for C5: `"16:9"` based on width at 1920×1080 gives ratio
1.777778, lock engaged, height 1080.00. -/
theorem C5_set_ratio_witness :
    (set_ratio_and_calculate ⟨1920, 1080, none, false⟩ (RatioInput.pair 16 9) true).aspect =
      some (round6 (16 / 9)) ∧
    (set_ratio_and_calculate ⟨1920, 1080, none, false⟩ (RatioInput.pair 16 9)
      true).ratio_locked = true ∧
    (set_ratio_and_calculate ⟨1920, 1080, none, false⟩ (RatioInput.pair 16 9) true).height =
      round2 ((1920 : ℚ) / round6 (16 / 9)) ∧
    round6 ((16 : ℚ) / 9) = 1777778 / 1000000 ∧
    round2 ((1920 : ℚ) / round6 (16 / 9)) = 1080 := by
  have h := C5_set_ratio ⟨1920, 1080, none, false⟩ (RatioInput.pair 16 9) (round6 (16 / 9))
    true (Or.inr ⟨16, 9, rfl, by norm_num, by norm_num, rfl⟩) (by norm_num [round6, rhu])
  have h3 := h.2.2.1 rfl (by norm_num) (by norm_num [round2, round6, rhu])
  exact ⟨h.1, h.2.1, h3.1, by norm_num [round6, rhu], by norm_num [round2, round6, rhu]⟩

theorem calculateAspect_congr (X Y : CalcState) (hw : X.width = Y.width)
    (hh : X.height = Y.height) (hf : X.ratio_locked = Y.ratio_locked) :
    calculateAspect X = calculateAspect Y := by
  simp [calculateAspect, hw, hh, hf]

/-- Applying both unlocked setters with already-rounded positive values
replaces the dimensions and recomputes the ratio once from the new pair. -/
theorem scale_success_core (t : CalcState) (nw nh : ℚ) (hl : t.ratio_locked = false)
    (hnw : 0 < nw) (hnh : 0 < nh) (hrw : round2 nw = nw) (hrh : round2 nh = nh) :
    set_height (set_width t (some nw)) (some nh) =
      calculateAspect { t with width := nw, height := nh } := by
  rw [set_width_unlocked t nw hl (by rw [hrw]; exact hnw), hrw]
  have hfl2 : (calculateAspect { t with width := nw }).ratio_locked = false := by
    rw [calculateAspect_flag]
    exact hl
  rw [set_height_unlocked _ nh hfl2 (by rw [hrh]; exact hnh), hrh]
  exact calculateAspect_congr _ _ (by rw [calculateAspect_width]) rfl
    (by rw [calculateAspect_flag])

/-- C6: with positive dimensions and a positive factor whose scaled, rounded
dimensions are positive, `multiply_by_scale` multiplies both dimensions
(each rounded to 2 decimals) and restores the initial lock flag; in
particular scaling locked 1920×1080 (ratio 1.777778) by "2" gives
3840×2160, still locked, ratio unchanged. -/
theorem C6_scale (s : CalcState) (f : ℚ) (hw : 0 < s.width) (hh : 0 < s.height)
    (hf : 0 < f) (hnw : 0 < round2 (s.width * f)) (hnh : 0 < round2 (s.height * f)) :
    (multiply_by_scale s (some f)).width = round2 (s.width * f) ∧
    (multiply_by_scale s (some f)).height = round2 (s.height * f) ∧
    (multiply_by_scale s (some f)).ratio_locked = s.ratio_locked ∧
    multiply_by_scale ⟨1920, 1080, some (1777778 / 1000000), true⟩ (some 2) =
      ⟨3840, 2160, some (1777778 / 1000000), true⟩ := by
  have hconc : multiply_by_scale ⟨1920, 1080, some (1777778 / 1000000), true⟩ (some 2) =
      ⟨3840, 2160, some (1777778 / 1000000), true⟩ := by
    norm_num [multiply_by_scale, setLocked, set_width, set_height, calculateAspect, round2,
      round6, rhu, CalcState.mk.injEq]
  by_cases hl : s.ratio_locked = true
  · have key : multiply_by_scale s (some f) =
        setLocked (set_height (set_width (setLocked s false) (some (round2 (s.width * f))))
          (some (round2 (s.height * f)))) true := by
      simp only [multiply_by_scale, if_neg hf.not_le, if_pos hl]
      rw [setLocked_width, setLocked_height, if_neg (not_or.mpr ⟨hnw.not_le, hnh.not_le⟩)]
    have hcore := scale_success_core (setLocked s false) (round2 (s.width * f))
      (round2 (s.height * f)) (setLocked_flag s false) hnw hnh (round2_idem _) (round2_idem _)
    refine ⟨?_, ?_, ?_, hconc⟩
    · rw [key, hcore, setLocked_width, calculateAspect_width]
    · rw [key, hcore, setLocked_height, calculateAspect_height]
    · rw [key, setLocked_flag, hl]
  · have hlf : s.ratio_locked = false := by
      revert hl
      cases s.ratio_locked <;> simp
    have key : multiply_by_scale s (some f) =
        set_height (set_width s (some (round2 (s.width * f))))
          (some (round2 (s.height * f))) := by
      simp only [multiply_by_scale, if_neg hf.not_le, if_neg hl]
      rw [if_neg (not_or.mpr ⟨hnw.not_le, hnh.not_le⟩)]
    have hcore := scale_success_core s (round2 (s.width * f)) (round2 (s.height * f))
      hlf hnw hnh (round2_idem _) (round2_idem _)
    refine ⟨?_, ?_, ?_, hconc⟩
    · rw [key, hcore, calculateAspect_width]
    · rw [key, hcore, calculateAspect_height]
    · rw [key, hcore, calculateAspect_flag]

/-- Witness for C6 on the unlocked constructor-like state 1920×1080 with
factor 2. -/
theorem C6_scale_witness :
    (multiply_by_scale ⟨1920, 1080, none, false⟩ (some 2)).width =
      round2 ((1920 : ℚ) * 2) ∧
    (multiply_by_scale ⟨1920, 1080, none, false⟩ (some 2)).ratio_locked = false := by
  have h := C6_scale ⟨1920, 1080, none, false⟩ 2 (by norm_num) (by norm_num) (by norm_num)
    (by norm_num [round2, rhu]) (by norm_num [round2, rhu])
  exact ⟨h.1, h.2.2.1⟩

theorem preset_find (p : ResolutionPreset) (hp : p ∈ PRESETS) :
    find_preset_by_name p.name = some p := by
  fin_cases hp <;> rfl

theorem preset_facts (p : ResolutionPreset) (hp : p ∈ PRESETS) :
    0 < p.width ∧ 0 < p.height ∧ round2 p.width = p.width ∧ round2 p.height = p.height := by
  fin_cases hp <;> norm_num [round2, rhu]

theorem setLocked_true_aspect (t : CalcState) (hfl : t.ratio_locked = false)
    (hh : 0 < t.height) :
    (setLocked t true).aspect = some (round6 (t.width / t.height)) := by
  rw [setLocked_true_of_unlocked t hfl]
  rw [calculateAspect_aspect { t with ratio_locked := true } hh]

theorem find_HD_eval : find_preset_by_name "HD (16:9)" =
    some ⟨"HD (16:9)", 1280, 720⟩ := rfl

/-- C8: applying any catalog preset sets both dimensions to the preset
values and restores the initial lock flag, recomputing the ratio as
`round6(pw / ph)` when the lock is re-engaged; in particular, from a locked
square state at ratio 1.0, preset (1280, 720) gives 1280×720, locked, ratio
1.777778. -/
theorem C8_apply_preset (s : CalcState) (p : ResolutionPreset) (hp : p ∈ PRESETS) :
    (apply_preset s p.name).width = p.width ∧
    (apply_preset s p.name).height = p.height ∧
    (apply_preset s p.name).ratio_locked = s.ratio_locked ∧
    (s.ratio_locked = true →
      (apply_preset s p.name).aspect = some (round6 (p.width / p.height))) ∧
    apply_preset ⟨1080, 1080, some 1, true⟩ "HD (16:9)" =
      ⟨1280, 720, some (1777778 / 1000000), true⟩ := by
  obtain ⟨hpw, hph, hrw, hrh⟩ := preset_facts p hp
  have hfind := preset_find p hp
  have hconc : apply_preset ⟨1080, 1080, some 1, true⟩ "HD (16:9)" =
      ⟨1280, 720, some (1777778 / 1000000), true⟩ := by
    norm_num [apply_preset, find_HD_eval, setLocked, set_width, set_height, calculateAspect,
      round2, round6, rhu, CalcState.mk.injEq]
  by_cases hl : s.ratio_locked = true
  · have key : apply_preset s p.name =
        setLocked (set_height (set_width (setLocked s false) (some p.width))
          (some p.height)) true := by
      simp only [apply_preset, hfind, if_pos hl]
    have hcore := scale_success_core (setLocked s false) p.width p.height
      (setLocked_flag s false) hpw hph hrw hrh
    refine ⟨?_, ?_, ?_, ?_, hconc⟩
    · rw [key, hcore, setLocked_width, calculateAspect_width]
    · rw [key, hcore, setLocked_height, calculateAspect_height]
    · rw [key, setLocked_flag, hl]
    · intro _
      rw [key, hcore]
      have hfl3 : (calculateAspect
          { setLocked s false with width := p.width, height := p.height }).ratio_locked =
          false := by
        rw [calculateAspect_flag]
        exact setLocked_flag s false
      have hh3 : 0 < (calculateAspect
          { setLocked s false with width := p.width, height := p.height }).height := by
        rw [calculateAspect_height]
        exact hph
      rw [setLocked_true_aspect _ hfl3 hh3, calculateAspect_width, calculateAspect_height]
  · have hlf : s.ratio_locked = false := by
      revert hl
      cases s.ratio_locked <;> simp
    have key : apply_preset s p.name =
        set_height (set_width s (some p.width)) (some p.height) := by
      simp only [apply_preset, hfind, if_neg hl]
    have hcore := scale_success_core s p.width p.height hlf hpw hph hrw hrh
    refine ⟨?_, ?_, ?_, ?_, hconc⟩
    · rw [key, hcore, calculateAspect_width]
    · rw [key, hcore, calculateAspect_height]
    · rw [key, hcore, calculateAspect_flag]
    · intro htrue
      exact absurd htrue hl

/-- Witness for C8: the HD preset applied to a locked square state. -/
theorem C8_apply_preset_witness :
    (apply_preset ⟨1080, 1080, some 1, true⟩ "HD (16:9)").width = 1280 ∧
    (apply_preset ⟨1080, 1080, some 1, true⟩ "HD (16:9)").ratio_locked = true ∧
    (apply_preset ⟨1080, 1080, some 1, true⟩ "HD (16:9)").aspect =
      some (round6 (1280 / 720)) := by
  have h := C8_apply_preset ⟨1080, 1080, some 1, true⟩ ⟨"HD (16:9)", 1280, 720⟩
    (by norm_num [PRESETS])
  exact ⟨h.1, h.2.2.1, h.2.2.2.1 rfl⟩

theorem dot_append_ne_empty (t : String) : "." ++ t ≠ "" := by
  intro h
  have hlen := congrArg String.length h
  rw [String.length_append] at hlen
  have h1 : ("." : String).length = 1 := rfl
  have h2 : ("" : String).length = 0 := rfl
  rw [h1, h2] at hlen
  omega

theorem decStr_empty_iff (w : ℚ) :
    (if |w - (rhu w : ℚ)| = 0 then "" else fracFormat2 |w - (rhu w : ℚ)|) = "" ↔
      w = (rhu w : ℚ) := by
  constructor
  · intro h
    by_cases hd : |w - (rhu w : ℚ)| = 0
    · exact sub_eq_zero.mp (abs_eq_zero.mp hd)
    · rw [if_neg hd] at h
      exact absurd h (dot_append_ne_empty _)
  · intro h
    rw [if_pos (by rw [← h]; simp)]

theorem decStr_format (w : ℚ) (k : ℤ) (hk : w = (k : ℚ) / 100)
    (hne : ¬ |w - (rhu w : ℚ)| = 0) :
    (if |w - (rhu w : ℚ)| = 0 then "" else fracFormat2 |w - (rhu w : ℚ)|) =
      "." ++ pad2 |k - 100 * rhu w| := by
  rw [if_neg hne]
  unfold fracFormat2
  congr 1
  have harg : |w - (rhu w : ℚ)| * 100 = ((|k - 100 * rhu w| : ℤ) : ℚ) := by
    set i := rhu w with hi
    rw [hk, Int.cast_abs]
    push_cast
    rw [show |(k : ℚ) / 100 - (i : ℚ)| * 100 = |((k : ℚ) / 100 - i) * 100| by
        rw [abs_mul]; norm_num,
      show ((k : ℚ) / 100 - i) * 100 = (k : ℚ) - 100 * i by ring]
  rw [harg, rhe_intCast]

/-- C10: the fractional display strings are computed relative to the
half-up rounded integer view: for a 2-decimal width `k/100` the string is
empty exactly when the width equals its rounded integer, otherwise it is a
dot followed by the two digits of `|k - 100·width_int|`; the distance to the
rounded integer never exceeds 0.50; for width 1920.75 the integer view is
1921 and the displayed fraction is ".25". -/
theorem C10_decimal_strings (s : CalcState) (k m : ℤ)
    (hk : s.width = (k : ℚ) / 100) (hm : s.height = (m : ℚ) / 100) :
    (width_decimal_part_str s = "" ↔ s.width = (width_int s : ℚ)) ∧
    (width_decimal_part_str s ≠ "" →
      width_decimal_part_str s = "." ++ pad2 |k - 100 * width_int s|) ∧
    |s.width - (width_int s : ℚ)| ≤ 1 / 2 ∧
    (height_decimal_part_str s = "" ↔ s.height = (height_int s : ℚ)) ∧
    (height_decimal_part_str s ≠ "" →
      height_decimal_part_str s = "." ++ pad2 |m - 100 * height_int s|) ∧
    |s.height - (height_int s : ℚ)| ≤ 1 / 2 ∧
    width_int ⟨192075 / 100, 1080, none, false⟩ = 1921 ∧
    width_decimal_part_str ⟨192075 / 100, 1080, none, false⟩ = ".25" := by
  have hint : width_int ⟨192075 / 100, 1080, none, false⟩ = 1921 := by
    norm_num [width_int, rhu]
  have hstr : width_decimal_part_str ⟨192075 / 100, 1080, none, false⟩ = ".25" := by
    have h1 : width_decimal_part_str ⟨192075 / 100, 1080, none, false⟩ =
        fracFormat2 (1 / 4) := by
      simp only [width_decimal_part_str, hint]
      norm_num [abs_of_nonneg]
    rw [h1]
    unfold fracFormat2
    rw [show ((1 / 4 : ℚ) * 100) = ((25 : ℤ) : ℚ) by norm_num, rhe_intCast]
    rfl
  refine ⟨?_, ?_, ?_, ?_, ?_, ?_, hint, hstr⟩
  · simp only [width_decimal_part_str, width_int]
    exact decStr_empty_iff s.width
  · intro hne
    simp only [width_decimal_part_str, width_int] at hne ⊢
    refine decStr_format s.width k hk ?_
    intro hd
    exact hne (by rw [if_pos hd])
  · simp only [width_int]
    exact abs_sub_rhu s.width
  · simp only [height_decimal_part_str, height_int]
    exact decStr_empty_iff s.height
  · intro hne
    simp only [height_decimal_part_str, height_int] at hne ⊢
    refine decStr_format s.height m hm ?_
    intro hd
    exact hne (by rw [if_pos hd])
  · simp only [height_int]
    exact abs_sub_rhu s.height

/-- Witness for C10 at the concrete state with width 1920.75 and height
1080. -/
theorem C10_decimal_strings_witness :
    (width_decimal_part_str ⟨192075 / 100, 1080, none, false⟩ = "" ↔
      (⟨192075 / 100, 1080, none, false⟩ : CalcState).width =
        (width_int ⟨192075 / 100, 1080, none, false⟩ : ℚ)) ∧
    width_int ⟨192075 / 100, 1080, none, false⟩ = 1921 ∧
    width_decimal_part_str ⟨192075 / 100, 1080, none, false⟩ = ".25" := by
  have h := C10_decimal_strings ⟨192075 / 100, 1080, none, false⟩ 192075 108000 rfl
    (by norm_num)
  exact ⟨h.1, h.2.2.2.2.2.2.1, h.2.2.2.2.2.2.2⟩

end ResolutionCal
